import Mathlib

/-!
# Verification of the universal-iiif-downloader specification

A shallow embedding of the parts of the repository that the claims talk
about, followed by one theorem per claim.

Strings are modelled as `List Char`; Python string methods
(`strip`, `replace`, `in`, `split`, `lower`) are embedded as executable
functions on character lists.  Components of the repository that are not
present under `src/` (the job manager, the `IIIFDownloader` engine and the
services `VaultManager`) are modelled from the specification text and are
marked as such in their doc comments.
-/

namespace IIIF

/-! ## ASCII character helpers -/

/-- ASCII lower-casing, as performed by Python `str.lower` on ASCII input
and by `re.IGNORECASE` comparisons (all inputs involved are ASCII). -/
def asciiLower (c : Char) : Char :=
  if 65 ≤ c.toNat ∧ c.toNat ≤ 90 then Char.ofNat (c.toNat + 32) else c

/-- The character class `[a-z0-9]` (lower-case ASCII letter or digit). -/
def isLowerAlnum (c : Char) : Bool :=
  decide (97 ≤ c.toNat ∧ c.toNat ≤ 122) || decide (48 ≤ c.toNat ∧ c.toNat ≤ 57)

/-- The character class `[a-z0-9]` under `re.IGNORECASE`, i.e. an ASCII
letter or digit. -/
def isAsciiAlnum (c : Char) : Bool :=
  decide (97 ≤ c.toNat ∧ c.toNat ≤ 122) || decide (65 ≤ c.toNat ∧ c.toNat ≤ 90) ||
    decide (48 ≤ c.toNat ∧ c.toNat ≤ 57)

/-- A lower-case hexadecimal digit `[0-9a-f]`. -/
def isHexLower (c : Char) : Bool :=
  decide (48 ≤ c.toNat ∧ c.toNat ≤ 57) || decide (97 ≤ c.toNat ∧ c.toNat ≤ 102)

/-- The whitespace characters stripped by Python `str.strip()` (ASCII part). -/
def isPyWs (c : Char) : Bool :=
  c == ' ' || c == '\t' || c == '\n' || c == '\x0d' || c == '\x0b' || c == '\x0c'

/-! ## Python string operations on `List Char` -/

/-- Python `str.strip()`: drop whitespace from both ends. -/
def pyStrip (l : List Char) : List Char :=
  ((l.dropWhile isPyWs).reverse.dropWhile isPyWs).reverse

/-- Python `str.strip(chars)` for a single character (used as `s.strip("/")`). -/
def pyStripChar (ch : Char) (l : List Char) : List Char :=
  ((l.dropWhile (· == ch)).reverse.dropWhile (· == ch)).reverse

/-- Python substring containment `pat in s` (for non-empty `pat`). -/
def isSubstr (pat : List Char) : List Char → Bool
  | [] => pat == []
  | c :: cs => ((c :: cs).take pat.length == pat) || isSubstr pat cs

/-- Python `s.split(sep)[-1]` for `sep = '/'`-like single characters:
the suffix of `l` after the last occurrence of `sep` (all of `l` if
`sep` does not occur). -/
def lastSegment (sep : Char) (l : List Char) : List Char :=
  (l.reverse.takeWhile (· ≠ sep)).reverse

/-- One fuel-driven step of Python `str.replace(pat, rep)` (all
non-overlapping occurrences, scanned left to right).  `pat` is non-empty
in every use below, so fuel `l.length` always suffices. -/
def pyReplaceFuel (pat rep : List Char) : Nat → List Char → List Char
  | 0, l => l
  | _ + 1, [] => []
  | fuel + 1, c :: cs =>
    if ((c :: cs).take pat.length) == pat then
      rep ++ pyReplaceFuel pat rep fuel ((c :: cs).drop pat.length)
    else
      c :: pyReplaceFuel pat rep fuel cs

/-- Python `str.replace(pat, rep)`. -/
def pyReplace (pat rep l : List Char) : List Char :=
  pyReplaceFuel pat rep l.length l

/-- Convenience: the characters of a string literal. -/
def strL (s : String) : List Char := s.toList

/-- Delete every space character (the effect of `s.replace(" ", "")`). -/
def delSpaces (l : List Char) : List Char := l.filter (fun c => c != ' ')

/-! ## `resolve_shelfmark` (src/iiif_downloader/resolvers/discovery.py) -/

/-- The UUID group widths of the 8-4-4-4-12 pattern, checked as a *prefix*
match (Python `re.match` anchors only at the start). -/
def uuidGroupsOk : List Nat → List Char → Bool
  | [], _ => true
  | [g], l => (l.take g).length == g && (l.take g).all isHexLower
  | g :: g2 :: gs, l =>
    (l.take g).length == g && (l.take g).all isHexLower &&
      (match l.drop g with
       | '-' :: rest => uuidGroupsOk (g2 :: gs) rest
       | _ => false)

/-- `re.match` of the Bodleian UUID pattern
`[0-9a-f]{8}-[0-9a-f]{4}-[0-9a-f]{4}-[0-9a-f]{4}-[0-9a-f]{12}`
against the start of `l`. -/
def uuidStartsOk (l : List Char) : Bool :=
  uuidGroupsOk [8, 4, 4, 4, 12] l

/-- `resolve_shelfmark(library, shelfmark)` from
`src/iiif_downloader/resolvers/discovery.py`: maps a library name and a
shelfmark/ID to `(manifest_url, doc_id)`, with `None` components encoded
as `Option.none`. -/
def resolveShelfmark (library shelfmark : List Char) :
    Option (List Char) × Option (List Char) :=
  let s := pyStrip shelfmark
  if library = strL "Vaticana (BAV)" then
    if isSubstr (strL "digi.vatlib.it") s then
      let msId := lastSegment '/' (pyStripChar '/' s)
      (some (strL "https://digi.vatlib.it/iiif/" ++ msId ++ strL "/manifest.json"),
        some msId)
    else
      let clean1 := pyReplace (strL " ") [] s
      let clean2 := pyReplace (strL "Lat.") (strL "lat.") clean1
      let clean3 := pyReplace (strL "Gr.") (strL "gr.") clean2
      let clean4 := pyReplace (strL "Vat.") (strL "vatic.") clean3
      let cleanS := pyReplace (strL "Pal.") (strL "pal.") clean4
      let cleanId := if (cleanS.take 4) == strL "MSS_" then cleanS
        else strL "MSS_" ++ cleanS
      (some (strL "https://digi.vatlib.it/iiif/" ++ cleanId ++ strL "/manifest.json"),
        some cleanS)
  else if library = strL "Gallica (BnF)" then
    if !(isSubstr (strL "ark:/") s) then
      (none, some (strL "Gallica richiede un ID formato ARK (es. ark:/12148/...)"))
    else
      let docId := lastSegment '/' s
      (some (strL "https://gallica.bnf.fr/iiif/" ++ s ++ strL "/manifest.json"),
        some docId)
  else if library = strL "Bodleian (Oxford)" then
    if !(uuidStartsOk (s.map asciiLower)) then
      (none, some (strL "Bodleian richiede un UUID valido."))
    else
      (some (strL "https://iiif.bodleian.ox.ac.uk/iiif/manifest/" ++
          s.map asciiLower ++ strL ".json"),
        some s)
  else
    (none, none)

/-! ## `GallicaResolver` (src/src/universal_iiif_core/resolvers/gallica.py) -/

/-- The literal regex fragment `ark:/12148/` that `_ARK_CAPTURE_RE` matches
case-insensitively. -/
def arkPat : List Char := strL "ark:/12148/"

/-- The maximal run of `[a-z0-9]` (case-insensitive) characters at the head
of the list: what the greedy group `([a-z0-9]+)` captures. -/
def takeAlnumRun : List Char → List Char
  | [] => []
  | c :: cs => if isAsciiAlnum c then c :: takeAlnumRun cs else []

/-- `_ARK_CAPTURE_RE.search`: find the leftmost position where
`ark:/12148/` (case-insensitively) is followed by at least one
alphanumeric character, and return the captured `([a-z0-9]+)` group. -/
def arkFind : List Char → Option (List Char)
  | [] => none
  | c :: cs =>
    if (((c :: cs).take 11).map asciiLower == arkPat) &&
        (match (c :: cs).drop 11 with
         | d :: _ => isAsciiAlnum d
         | [] => false) then
      some (takeAlnumRun ((c :: cs).drop 11))
    else
      arkFind cs

/-- `_SHORT_ID_RE.match(s)` with the pattern `^[a-z0-9]{6,}$` under
`re.IGNORECASE`: the whole (already stripped) string is alphanumeric and
at least 6 characters long. -/
def shortIdOk (l : List Char) : Bool :=
  decide (6 ≤ l.length) && l.all isAsciiAlnum

/-- `GallicaResolver.get_manifest_url` from
`src/src/universal_iiif_core/resolvers/gallica.py`. -/
def gallicaManifestUrl (input : List Char) : Option (List Char) × Option (List Char) :=
  let s := pyStrip input
  if s = [] then (none, none)
  else
    match arkFind s with
    | some rawId =>
      let docId := rawId.takeWhile (· ≠ '.')
      (some (strL "https://gallica.bnf.fr/iiif/ark:/12148/" ++ docId ++
          strL "/manifest.json"),
        some docId)
    | none =>
      if shortIdOk s && !(s.contains '/') then
        (some (strL "https://gallica.bnf.fr/iiif/ark:/12148/" ++ s ++
            strL "/manifest.json"),
          some s)
      else (none, none)

/-! ## `get_json` (src/src/universal_iiif_core/utils.py)

The HTTP boundary is modelled by an oracle giving, for each attempt
index, the outcome of `session.get` on that attempt.  JSON values are an
abstract type parameter. -/

/-- The body of a completed response, as `get_json` consumes it.
`empty` is falsy `resp.content`; `json v` means `resp.json()` succeeds
with `v`; `bad fb` means `resp.json()` raises `ValueError` and the
`_handle_json_fallback` attempts (manual Brotli decompression, then
BOM-stripped re-parse, all exceptions caught) produce `fb`. -/
inductive Body (V : Type) where
  | empty : Body V
  | json : V → Body V
  | bad : Option V → Body V

/-- What one HTTP attempt observes.
`netErr` is a `RequestException` raised by `session.get` itself;
`resp status body` is a completed response. -/
inductive Attempt (V : Type) where
  | netErr : Attempt V
  | resp : Nat → Body V → Attempt V

variable {V : Type}

/-- The `for attempt in range(retries)` loop of `get_json`.
`i` is the current attempt index and `remaining` the number of loop
iterations still available; falling off the loop returns `None`.
`raise_for_status` raises (an `HTTPError`, caught by the
`except RequestException` arm) exactly for statuses in `[400, 600)`. -/
def getJsonLoop (oracle : Nat → Attempt V) : Nat → Nat → Option V
  | _, 0 => none
  | i, remaining + 1 =>
    match oracle i with
    | .netErr =>
      if remaining = 0 then none else getJsonLoop oracle (i + 1) remaining
    | .resp status body =>
      if status = 429 then getJsonLoop oracle (i + 1) remaining
      else if 400 ≤ status ∧ status < 600 then
        if remaining = 0 then none else getJsonLoop oracle (i + 1) remaining
      else
        match body with
        | .empty => none
        | .json v => some v
        | .bad fb => fb

/-- `get_json(url)` with the default `retries=3`, run against `oracle`. -/
def getJson (oracle : Nat → Attempt V) : Option V :=
  getJsonLoop oracle 0 3

/-- An attempt outcome that the loop reacts to by retrying (or by
returning `None` if it was the last attempt): a network error, an HTTP
error status in `[400, 600)`, or a 429 rate-limit response. -/
def retryish : Attempt V → Prop
  | .netErr => True
  | .resp status _ => status = 429 ∨ (400 ≤ status ∧ status < 600)

/-- A response on which `get_json` terminates with `None` without
consuming further attempts: a non-error status whose body is empty, or
whose JSON parse fails and the fallback attempts also fail. -/
def terminalNone : Attempt V → Prop
  | .netErr => False
  | .resp status body =>
    ¬(status = 429 ∨ (400 ≤ status ∧ status < 600)) ∧
      (body = .empty ∨ body = .bad none)

/-! ## Percent computation in the polling endpoints -/

/-- Python true division `a / b`, partial at `b = 0` (a
`ZeroDivisionError`), with real arithmetic modelled in `ℚ`. -/
def pyDiv (a b : ℚ) : Option ℚ :=
  if b = 0 then none else some (a / b)

/-- `percent = int((curr / total * 100) if total > 0 else 0)` from
`get_download_status` in `src/src/studio_ui/routes/discovery_handlers.py`.
`int(...)` on these non-negative values is the floor `⌊·⌋₊`. -/
def statusPercent (curr total : ℕ) : Option ℕ :=
  if 0 < total then (pyDiv curr total).map (fun q => ⌊q * 100⌋₊)
  else some 0

/-- `percent = int((current / total * 100) if total > 0 else 0)` from
`render_download_job_card` in `src/src/studio_ui/components/discovery.py`. -/
def jobCardPercent (current total : ℕ) : Option ℕ :=
  if 0 < total then (pyDiv current total).map (fun q => ⌊q * 100⌋₊)
  else some 0

/-! ## SHA-256 (Python `hashlib.sha256(...).hexdigest()`)

`generate_job_id` hashes the UTF-8 bytes of the manifest URL with
SHA-256; the algorithm is embedded executably over `Nat` with explicit
`% 2 ^ 32` reductions. -/

/-- 32-bit right rotation. -/
def rotr32 (n x : Nat) : Nat :=
  ((x >>> n) ||| (x <<< (32 - n))) % (2 ^ 32)

/-- SHA-256 `Ch(x,y,z)`. -/
def shaCh (x y z : Nat) : Nat := (x &&& y) ^^^ ((x ^^^ (2 ^ 32 - 1)) &&& z)

/-- SHA-256 `Maj(x,y,z)`. -/
def shaMaj (x y z : Nat) : Nat := (x &&& y) ^^^ (x &&& z) ^^^ (y &&& z)

/-- SHA-256 `Σ₀`. -/
def bigSigma0 (x : Nat) : Nat := rotr32 2 x ^^^ rotr32 13 x ^^^ rotr32 22 x

/-- SHA-256 `Σ₁`. -/
def bigSigma1 (x : Nat) : Nat := rotr32 6 x ^^^ rotr32 11 x ^^^ rotr32 25 x

/-- SHA-256 `σ₀`. -/
def smallSigma0 (x : Nat) : Nat := rotr32 7 x ^^^ rotr32 18 x ^^^ ((x >>> 3) % (2 ^ 32))

/-- SHA-256 `σ₁`. -/
def smallSigma1 (x : Nat) : Nat := rotr32 17 x ^^^ rotr32 19 x ^^^ ((x >>> 10) % (2 ^ 32))

/-- The 64 SHA-256 round constants. -/
def shaK : List Nat :=
  [1116352408, 1899447441, 3049323471, 3921009573, 961987163,
   1508970993, 2453635748, 2870763221, 3624381080, 310598401,
   607225278, 1426881987, 1925078388, 2162078206, 2614888103,
   3248222580, 3835390401, 4022224774, 264347078, 604807628,
   770255983, 1249150122, 1555081692, 1996064986, 2554220882,
   2821834349, 2952996808, 3210313671, 3336571891, 3584528711,
   113926993, 338241895, 666307205, 773529912, 1294757372,
   1396182291, 1695183700, 1986661051, 2177026350, 2456956037,
   2730485921, 2820302411, 3259730800, 3345764771, 3516065817,
   3600352804, 4094571909, 275423344, 430227734, 506948616,
   659060556, 883997877, 958139571, 1322822218, 1537002063,
   1747873779, 1955562222, 2024104815, 2227730452, 2361852424,
   2428436474, 2756734187, 3204031479, 3329325298]

/-- The SHA-256 initial hash values. -/
def shaH0 : List Nat :=
  [1779033703, 3144134277, 1013904242, 2773480762, 1359893119,
   2600822924, 528734635, 1541459225]

/-- Split a list into chunks of `n` elements (`n ≥ 1` in every use;
fuel-driven so that evaluation is definitional). -/
def chunksFuel (n : Nat) : Nat → List α → List (List α)
  | 0, _ => []
  | _ + 1, [] => []
  | fuel + 1, l => l.take n :: chunksFuel n fuel (l.drop n)

/-- Split a list into chunks of `n` elements. -/
def chunksOf (n : Nat) (l : List α) : List (List α) :=
  chunksFuel n l.length l

/-- Big-endian 32-bit word from (up to four) bytes. -/
def be32 (bs : List Nat) : Nat := bs.foldl (fun acc b => acc * 256 + b) 0

/-- Big-endian 8-byte encoding of `n` (the padded bit-length field). -/
def be64 (n : Nat) : List Nat :=
  (List.range 8).map (fun i => (n >>> (56 - 8 * i)) % 256)

/-- SHA-256 padding: `0x80`, zeros to 56 mod 64, then the 64-bit
big-endian bit length. -/
def shaPad (msg : List Nat) : List Nat :=
  msg ++ 0x80 :: List.replicate ((64 - ((msg.length + 9) % 64)) % 64) 0 ++
    be64 (msg.length * 8)

/-- Extend the 16 block words to the 64-word message schedule. -/
def shaSchedule (w16 : List Nat) : List Nat :=
  (List.range 48).foldl
    (fun ws _ =>
      let n := ws.length
      ws ++ [(smallSigma1 (ws.getD (n - 2) 0) + ws.getD (n - 7) 0 +
          smallSigma0 (ws.getD (n - 15) 0) + ws.getD (n - 16) 0) % (2 ^ 32)])
    w16

/-- One round of the SHA-256 compression function on the 8-word working
state. -/
def shaRound (st : List Nat) (wk : Nat × Nat) : List Nat :=
  let a := st.getD 0 0
  let b := st.getD 1 0
  let c := st.getD 2 0
  let d := st.getD 3 0
  let e := st.getD 4 0
  let f := st.getD 5 0
  let g := st.getD 6 0
  let h := st.getD 7 0
  let t1 := (h + bigSigma1 e + shaCh e f g + wk.2 + wk.1) % (2 ^ 32)
  let t2 := (bigSigma0 a + shaMaj a b c) % (2 ^ 32)
  [(t1 + t2) % (2 ^ 32), a, b, c, (d + t1) % (2 ^ 32), e, f, g]

/-- Compress one 64-byte block into the running hash. -/
def shaCompress (hs : List Nat) (block : List Nat) : List Nat :=
  let ws := shaSchedule ((chunksOf 4 block).map be32)
  let st := (ws.zip shaK).foldl shaRound hs
  (hs.zip st).map (fun p => (p.1 + p.2) % (2 ^ 32))

/-- A nibble as a lower-case hexadecimal character. -/
def hexChar (n : Nat) : Char :=
  if n < 10 then Char.ofNat (48 + n) else Char.ofNat (87 + n)

/-- A 32-bit word as 8 hexadecimal characters. -/
def wordHex (w : Nat) : List Char :=
  (List.range 8).map (fun i => hexChar ((w >>> (28 - 4 * i)) % 16))

/-- `hashlib.sha256(bytes).hexdigest()`. -/
def sha256hex (msg : List Nat) : List Char :=
  (((chunksOf 64 (shaPad msg)).foldl shaCompress shaH0).map wordHex).flatten

/-- UTF-8 encoding of one character (`str.encode("utf-8")`). -/
def utf8Char (c : Char) : List Nat :=
  let n := c.toNat
  if n < 0x80 then [n]
  else if n < 0x800 then [0xc0 + n / 64, 0x80 + n % 64]
  else if n < 0x10000 then
    [0xe0 + n / 4096, 0x80 + (n / 64) % 64, 0x80 + n % 64]
  else
    [0xf0 + n / 262144, 0x80 + (n / 4096) % 64, 0x80 + (n / 64) % 64,
      0x80 + n % 64]

/-- UTF-8 encoding of a string. -/
def utf8Bytes (l : List Char) : List Nat := (l.map utf8Char).flatten

/-- `generate_job_id(library, manifest_url)` from
`src/src/universal_iiif_core/utils.py`:
`f"{library}_{hashlib.sha256(manifest_url.encode('utf-8')).hexdigest()}"`. -/
def generateJobId (library manifestUrl : List Char) : List Char :=
  library ++ '_' :: sha256hex (utf8Bytes manifestUrl)

/-! ## `urllib.parse.unquote` -/

/-- The value of a hexadecimal digit, if any. -/
def hexDigitVal (c : Char) : Option Nat :=
  if 48 ≤ c.toNat ∧ c.toNat ≤ 57 then some (c.toNat - 48)
  else if 97 ≤ c.toNat ∧ c.toNat ≤ 102 then some (c.toNat - 87)
  else if 65 ≤ c.toNat ∧ c.toNat ≤ 70 then some (c.toNat - 55)
  else none

/-- Collect a maximal run of `%XX` escapes into bytes; returns the bytes
and the unconsumed remainder. -/
def pctRun : List Char → List Nat × List Char
  | '%' :: a :: b :: rest =>
    match hexDigitVal a, hexDigitVal b with
    | some x, some y =>
      let (bs, r) := pctRun rest
      ((16 * x + y) :: bs, r)
    | _, _ => ([], '%' :: a :: b :: rest)
  | l => ([], l)

/-- Decode UTF-8 bytes, replacing ill-formed sequences with U+FFFD
(Python `errors="replace"`); fuel-driven (fuel `bs.length` suffices since
every step consumes at least one byte). -/
def utf8DecFuel : Nat → List Nat → List Char
  | 0, _ => []
  | _ + 1, [] => []
  | fuel + 1, b :: bs =>
    if b < 0x80 then Char.ofNat b :: utf8DecFuel fuel bs
    else if 0xc2 ≤ b ∧ b ≤ 0xdf then
      match bs with
      | b2 :: bs2 =>
        if 0x80 ≤ b2 ∧ b2 ≤ 0xbf then
          Char.ofNat ((b - 0xc0) * 64 + (b2 - 0x80)) :: utf8DecFuel fuel bs2
        else Char.ofNat 0xfffd :: utf8DecFuel fuel bs
      | [] => [Char.ofNat 0xfffd]
    else if 0xe0 ≤ b ∧ b ≤ 0xef then
      match bs with
      | b2 :: b3 :: bs3 =>
        if 0x80 ≤ b2 ∧ b2 ≤ 0xbf ∧ 0x80 ≤ b3 ∧ b3 ≤ 0xbf ∧
            0x800 ≤ (b - 0xe0) * 4096 + (b2 - 0x80) * 64 + (b3 - 0x80) ∧
            ¬(0xd800 ≤ (b - 0xe0) * 4096 + (b2 - 0x80) * 64 + (b3 - 0x80) ∧
              (b - 0xe0) * 4096 + (b2 - 0x80) * 64 + (b3 - 0x80) ≤ 0xdfff) then
          Char.ofNat ((b - 0xe0) * 4096 + (b2 - 0x80) * 64 + (b3 - 0x80)) ::
            utf8DecFuel fuel bs3
        else Char.ofNat 0xfffd :: utf8DecFuel fuel bs
      | _ => [Char.ofNat 0xfffd]
    else if 0xf0 ≤ b ∧ b ≤ 0xf4 then
      match bs with
      | b2 :: b3 :: b4 :: bs4 =>
        if 0x80 ≤ b2 ∧ b2 ≤ 0xbf ∧ 0x80 ≤ b3 ∧ b3 ≤ 0xbf ∧
            0x80 ≤ b4 ∧ b4 ≤ 0xbf ∧
            0x10000 ≤ (b - 0xf0) * 262144 + (b2 - 0x80) * 4096 +
                (b3 - 0x80) * 64 + (b4 - 0x80) ∧
            (b - 0xf0) * 262144 + (b2 - 0x80) * 4096 + (b3 - 0x80) * 64 +
                (b4 - 0x80) ≤ 0x10ffff then
          Char.ofNat ((b - 0xf0) * 262144 + (b2 - 0x80) * 4096 +
              (b3 - 0x80) * 64 + (b4 - 0x80)) :: utf8DecFuel fuel bs4
        else Char.ofNat 0xfffd :: utf8DecFuel fuel bs
      | _ => [Char.ofNat 0xfffd]
    else Char.ofNat 0xfffd :: utf8DecFuel fuel bs

/-- Decode UTF-8 bytes with replacement. -/
def utf8DecodeReplace (bs : List Nat) : List Char := utf8DecFuel bs.length bs

/-- `urllib.parse.unquote`: percent-decode maximal `%XX` runs as UTF-8
with replacement, passing other characters through; fuel-driven (each
step consumes at least one character). -/
def unquoteFuel : Nat → List Char → List Char
  | 0, l => l
  | _ + 1, [] => []
  | fuel + 1, c :: cs =>
    if c = '%' then
      let (bs, r) := pctRun (c :: cs)
      if bs = [] then c :: unquoteFuel fuel cs
      else utf8DecodeReplace bs ++ unquoteFuel fuel r
    else c :: unquoteFuel fuel cs

/-- `urllib.parse.unquote(s)`. -/
def pyUnquote (l : List Char) : List Char := unquoteFuel l.length l

/-- The `job_id` computed and returned by `start_downloader_thread` in
`src/src/studio_ui/routes/discovery_helpers.py`: the inputs are
URL-unquoted, then `job_id = generate_job_id(library, manifest_url)`.
The `doc_id` argument of the route does not enter the id. -/
def startDownloaderThreadJobId (manifestUrl docId library : List Char) : List Char :=
  generateJobId (pyUnquote library) (pyUnquote manifestUrl)

/-! ## The durable Vault and the download worker

`_download_task` and its `db_progress_hook` are embedded from
`src/src/studio_ui/routes/discovery_helpers.py`.  The services
`VaultManager` itself is not under `src/`, so its three operations are
modelled from the specification (§4.5). -/

/-- A `download_jobs` row. -/
structure JobRecord where
  docId : List Char
  library : List Char
  manifestUrl : List Char
  current : Nat
  total : Nat
  status : List Char
  error : Option (List Char)
  deriving DecidableEq, Repr

/-- The `download_jobs` table, keyed by `job_id`. -/
def VaultJobs : Type := List (List Char × JobRecord)

/-- A Vault call issued by the worker, in issue order. -/
inductive DbCall where
  | create (jobId docId library manifestUrl : List Char)
  | update (jobId : List Char) (current total : Nat) (status : List Char)
      (err : Option (List Char))
  | upsertMs (msId library title localPath : List Char)
  deriving DecidableEq, Repr

/-- The `download_jobs` row (if any) that a Vault call touches. -/
def callJobTarget : DbCall → Option (List Char)
  | .create j _ _ _ => some j
  | .update j _ _ _ _ => some j
  | .upsertMs _ _ _ _ => none

/-- Modelled from the spec: `VaultManager.create_download_job` —
"insert-or-ignore (idempotent on `job_id`)" (§4.5); the module
`universal_iiif_core/services/storage/vault_manager.py` is not under
`src/`.  A fresh row starts `queued` with zero progress (§3 Job
lifecycle: "created on submission (queued)"). -/
def createDownloadJob (db : VaultJobs) (jobId docId library manifestUrl : List Char) :
    VaultJobs :=
  if (db.lookup jobId).isSome then db
  else (jobId, ⟨docId, library, manifestUrl, 0, 0, strL "queued", none⟩) :: db

/-- Modelled from the spec: `VaultManager.update_download_job` — "upsert
by `job_id`" (§4.5) of the progress/status/error columns. -/
def updateDownloadJob (db : VaultJobs) (jobId : List Char) (current total : Nat)
    (status : List Char) (err : Option (List Char)) : VaultJobs :=
  match db.lookup jobId with
  | some rec =>
    db.map (fun p =>
      if p.1 = jobId then
        (p.1, ⟨rec.docId, rec.library, rec.manifestUrl, current, total, status, err⟩)
      else p)
  | none =>
    (jobId, ⟨[], [], [], current, total, status, err⟩) :: db

/-- Apply one worker call to the `download_jobs` table (the
`manuscripts` table is separate and not modelled). -/
def applyCall (db : VaultJobs) : DbCall → VaultJobs
  | .create jobId docId library manifestUrl =>
    createDownloadJob db jobId docId library manifestUrl
  | .update jobId current total status err =>
    updateDownloadJob db jobId current total status err
  | .upsertMs _ _ _ _ => db

/-- Apply a trace of worker calls in order. -/
def applyTrace (db : VaultJobs) (calls : List DbCall) : VaultJobs :=
  calls.foldl applyCall db

/-- What the downloader run contributes to one execution of
`_download_task`: the ordered `(current, total)` progress invocations it
delivers to the hook, and whether `downloader.run` returns normally or
raises (with `str(exc)` as the message).  `label`/`docDir` are the
attributes read on success for `upsert_manuscript`. -/
structure RunBehavior where
  callbacks : List (Nat × Nat)
  outcome : Except (List Char) Unit
  label : List Char
  docDir : List Char

/-- `db_progress_hook` applied to each callback in order, threading the
`last = {"current": 0, "total": 0}` dictionary: a Vault write (status
`running`) is issued iff the pair differs from the last written one.
Returns the final `last` pair and the issued writes.  (The hook also
forwards every pair to the in-memory job-manager callback; that channel
carries no Vault writes and is not modelled.) -/
def hookWrites (jobId : List Char) : Nat × Nat → List (Nat × Nat) →
    (Nat × Nat) × List DbCall
  | last, [] => (last, [])
  | last, (c, t) :: rest =>
    if c ≠ last.1 ∨ t ≠ last.2 then
      let r := hookWrites jobId (c, t) rest
      (r.1, .update jobId c t (strL "running") none :: r.2)
    else
      hookWrites jobId last rest

/-- The full Vault trace of one `_download_task` execution: register the
job, stream the deduplicated progress writes, then either the
`completed` write plus the manuscript upsert, or the `error` write
carrying `str(exc)`. -/
def downloadTaskTrace (beh : RunBehavior) (jobId docId library manifestUrl : List Char) :
    List DbCall :=
  let r := hookWrites jobId (0, 0) beh.callbacks
  .create jobId docId library manifestUrl ::
    (r.2 ++
      match beh.outcome with
      | .ok _ =>
        [.update jobId r.1.1 r.1.2 (strL "completed") none,
         .upsertMs docId library beh.label beh.docDir]
      | .error m =>
        [.update jobId r.1.1 r.1.2 (strL "error") (some m)])

/-- `_download_task` as the worker sees it: the `try/except Exception`
around the body converts any exception raised by the downloader run into
the `error`-status write, so the worker function itself always returns
normally (`Except.ok`); nothing propagates to the job manager or the UI
thread. -/
def downloadTaskRun (beh : RunBehavior) (jobId docId library manifestUrl : List Char) :
    Except (List Char) (List DbCall) :=
  .ok (downloadTaskTrace beh jobId docId library manifestUrl)

/-- The `current` values of the progress rows persisted by a trace, in
write order. -/
def persistedCurrents (calls : List DbCall) : List Nat :=
  calls.filterMap (fun call =>
    match call with
    | .update _ c _ _ _ => some c
    | _ => none)

/-- Modelled from the spec: the callback trace of `IIIFDownloader.run`
(`universal_iiif_core/logic/downloader.py` is not under `src/`).  §4.3:
the engine "iterates canvases in manifest order (0-indexed)" and "on
each successful page, invokes `progress_callback(current, total)`", so a
run that processes pages up to page `k` of `total` delivers
`(1, total), (2, total), …, (k, total)`; a full run has `k = total`. -/
def specRunCallbacks (k total : Nat) : List (Nat × Nat) :=
  (List.range k).map (fun i => (i + 1, total))

/-- The persistence policy in the spec's own words (§4.4): "writes to
the durable Vault only when `(current,total)` actually change"; kept as
a separate definition to compare against the hook embedded from the
code. -/
def specChangedPairs : Nat × Nat → List (Nat × Nat) → List (Nat × Nat)
  | _, [] => []
  | last, p :: ps =>
    if p = last then specChangedPairs last ps else p :: specChangedPairs p ps

/-! # Lemmas about the `get_json` retry loop -/

theorem getJsonLoop_retry (oracle : Nat → Attempt V) (i r : Nat)
    (h : retryish (oracle i)) :
    getJsonLoop oracle i (r + 1) =
      if r = 0 then none else getJsonLoop oracle (i + 1) r := by
  cases ho : oracle i with
  | netErr => simp [getJsonLoop, ho]
  | resp st body =>
    rw [ho] at h
    rcases h with h429 | ⟨h4, h6⟩
    · subst h429
      simp only [getJsonLoop, ho, if_pos rfl]
      cases r with
      | zero => simp [getJsonLoop]
      | succ n => simp
    · by_cases h9 : st = 429
      · subst h9
        simp only [getJsonLoop, ho, if_pos rfl]
        cases r with
        | zero => simp [getJsonLoop]
        | succ n => simp
      · simp [getJsonLoop, ho, h9, h4, h6]

theorem getJsonLoop_terminal (oracle : Nat → Attempt V) (i r : Nat)
    (h : terminalNone (oracle i)) :
    getJsonLoop oracle i (r + 1) = none := by
  cases ho : oracle i with
  | netErr => rw [ho] at h; exact absurd h not_false
  | resp st body =>
    rw [ho] at h
    obtain ⟨hst, hbody⟩ := h
    push_neg at hst
    obtain ⟨h9, h46⟩ := hst
    have hcond : ¬(400 ≤ st ∧ st < 600) := by
      rintro ⟨a, b⟩
      exact absurd (h46 a) (by omega)
    rcases hbody with hb | hb <;> subst hb <;>
      simp [getJsonLoop, ho, h9, hcond]

/-! # Theorems for the claims -/

/-- C8: `get_json` returns `none` — and, all exceptions being caught in
the loop, never raises past its boundary — when the response body is
empty, when all 3 attempts are exhausted by network errors / HTTP error
statuses / 429 responses, or when a JSON parse failure survives the
fallback parsing attempts. -/
theorem getJson_none_on_failure (V : Type) (oracle : Nat → Attempt V) :
    ((∀ i < 3, retryish (oracle i)) → getJson oracle = none) ∧
    (∀ i < 3, (∀ j < i, retryish (oracle j)) → terminalNone (oracle i) →
      getJson oracle = none) := by
  constructor
  · intro h
    rw [getJson, show (3 : Nat) = 2 + 1 from rfl,
      getJsonLoop_retry oracle 0 2 (h 0 (by omega)), if_neg (by omega),
      show (2 : Nat) = 1 + 1 from rfl,
      getJsonLoop_retry oracle 1 1 (h 1 (by omega)), if_neg (by omega),
      show (1 : Nat) = 0 + 1 from rfl,
      getJsonLoop_retry oracle 2 0 (h 2 (by omega)), if_pos rfl]
  · intro i hi hpre hterm
    interval_cases i
    · rw [getJson, show (3 : Nat) = 2 + 1 from rfl]
      exact getJsonLoop_terminal oracle 0 2 hterm
    · rw [getJson, show (3 : Nat) = 2 + 1 from rfl,
        getJsonLoop_retry oracle 0 2 (hpre 0 (by omega)), if_neg (by omega),
        show (2 : Nat) = 1 + 1 from rfl]
      exact getJsonLoop_terminal oracle 1 1 hterm
    · rw [getJson, show (3 : Nat) = 2 + 1 from rfl,
        getJsonLoop_retry oracle 0 2 (hpre 0 (by omega)), if_neg (by omega),
        show (2 : Nat) = 1 + 1 from rfl,
        getJsonLoop_retry oracle 1 1 (hpre 1 (by omega)), if_neg (by omega),
        show (1 : Nat) = 0 + 1 from rfl]
      exact getJsonLoop_terminal oracle 2 0 hterm

/-- Witness for C8 at a concrete oracle whose three attempts all fail
with network errors. -/
theorem getJson_none_on_failure_witness :
    getJson (fun _ => Attempt.netErr (V := ℕ)) = none :=
  (getJson_none_on_failure ℕ (fun _ => Attempt.netErr)).1
    (fun i _ => by trivial)

/-- C9 counterexample: a 404 response is *not* terminal.  On this
concrete oracle the first attempt yields HTTP 404, yet `get_json` issues
a second attempt and returns its JSON value instead of surfacing `null`
immediately. -/
theorem getJson_404_not_terminal :
    getJson (fun i => if i = 0 then Attempt.resp 404 Body.empty
      else Attempt.resp 200 (Body.json (0 : ℕ))) = some 0 := rfl

/-- C9 amended: the session adapter retries only 429/5xx at the
transport level, but in the `get_json` loop *every* HTTP error status in
`[400, 600)` — 404 included — raises through `raise_for_status`, is
caught as a `RequestException`, and is retried on the next attempt;
`null` is surfaced only once the attempts are exhausted. -/
theorem getJson_http_error_retries (V : Type) (oracle : Nat → Attempt V)
    (st : Nat) (body : Body V) (h4 : 400 ≤ st) (h6 : st < 600)
    (h0 : oracle 0 = .resp st body) :
    getJson oracle = getJsonLoop oracle 1 2 ∧
    (∀ v, oracle 1 = .resp 200 (.json v) → getJson oracle = some v) := by
  have hr : retryish (oracle 0) := by rw [h0]; exact Or.inr ⟨h4, h6⟩
  constructor
  · rw [getJson, show (3 : Nat) = 2 + 1 from rfl,
      getJsonLoop_retry oracle 0 2 hr, if_neg (by omega)]
  · intro v h1
    rw [getJson, show (3 : Nat) = 2 + 1 from rfl,
      getJsonLoop_retry oracle 0 2 hr, if_neg (by omega),
      show (2 : Nat) = 1 + 1 from rfl]
    simp [getJsonLoop, h1]

/-- Witness for the amended C9: on a concrete oracle with a 404 first
attempt and a parseable 200 second attempt, the retried fetch returns
the JSON value. -/
theorem getJson_http_error_retries_witness :
    getJson (fun i => if i = 0 then Attempt.resp 404 Body.empty
      else Attempt.resp 200 (Body.json (7 : ℕ))) = some 7 :=
  (getJson_http_error_retries ℕ
    (fun i => if i = 0 then Attempt.resp 404 Body.empty
      else Attempt.resp 200 (Body.json 7)) 404 Body.empty
    (by omega) (by omega) rfl).2 7 rfl

/-- C10: both polling surfaces guard the percent computation: the value
is `int(current / total * 100)` (floor of the exact ratio) only when
`total > 0`, is `0` whenever `total = 0`, and the division is never
evaluated at a zero divisor (the result is never the
`ZeroDivisionError` marker `none`). -/
theorem percent_zero_guard (curr total : ℕ) :
    statusPercent curr total ≠ none ∧ jobCardPercent curr total ≠ none ∧
    (total = 0 → statusPercent curr total = some 0 ∧
      jobCardPercent curr total = some 0) ∧
    (0 < total →
      statusPercent curr total = some ⌊((curr : ℚ) / total) * 100⌋₊ ∧
      jobCardPercent curr total = some ⌊((curr : ℚ) / total) * 100⌋₊) := by
  rcases Nat.eq_zero_or_pos total with h | h
  · subst h
    exact ⟨by simp [statusPercent], by simp [jobCardPercent],
      fun _ => ⟨by simp [statusPercent], by simp [jobCardPercent]⟩,
      fun hc => absurd hc (by omega)⟩
  · have hne : ((total : ℚ)) ≠ 0 := Nat.cast_ne_zero.mpr (by omega)
    refine ⟨?_, ?_, fun h0 => absurd h0 (by omega), fun _ => ⟨?_, ?_⟩⟩ <;>
      simp [statusPercent, jobCardPercent, pyDiv, h, hne]

/-- Witness for C10 at concrete inputs on both sides of the guard. -/
theorem percent_zero_guard_witness :
    statusPercent 7 0 = some 0 ∧ jobCardPercent 3 0 = some 0 ∧
    statusPercent 1 3 = some ⌊((1 : ℚ) / 3) * 100⌋₊ :=
  ⟨((percent_zero_guard 7 0).2.2.1 rfl).1,
    ((percent_zero_guard 3 0).2.2.1 rfl).2,
    ((percent_zero_guard 1 3).2.2.2 (by omega)).1⟩

/-- C7: `resolve_shelfmark` distinguishes the two failure modes — an
unknown library yields `(none, none)`, while a recognized library with a
malformed identifier yields `(none, some message)` with a
library-specific human-readable message (Gallica without `ark:/` in the
input, Bodleian without a leading UUID), and the two messages differ. -/
theorem resolveShelfmark_error_modes :
    (∀ library shelfmark : List Char,
        library ≠ strL "Vaticana (BAV)" →
        library ≠ strL "Gallica (BnF)" →
        library ≠ strL "Bodleian (Oxford)" →
        resolveShelfmark library shelfmark = (none, none)) ∧
    (∀ s : List Char, isSubstr (strL "ark:/") (pyStrip s) = false →
        resolveShelfmark (strL "Gallica (BnF)") s =
          (none, some (strL "Gallica richiede un ID formato ARK (es. ark:/12148/...)"))) ∧
    (∀ s : List Char, uuidStartsOk ((pyStrip s).map asciiLower) = false →
        resolveShelfmark (strL "Bodleian (Oxford)") s =
          (none, some (strL "Bodleian richiede un UUID valido."))) ∧
    strL "Gallica richiede un ID formato ARK (es. ark:/12148/...)" ≠
      strL "Bodleian richiede un UUID valido." := by
  refine ⟨?_, ?_, ?_, by decide⟩
  · intro library shelfmark h1 h2 h3
    simp only [resolveShelfmark]
    rw [if_neg h1, if_neg h2, if_neg h3]
  · intro s hs
    simp only [resolveShelfmark]
    rw [if_neg (show ¬(strL "Gallica (BnF)" = strL "Vaticana (BAV)") by decide)]
    simp [hs]
  · intro s hs
    simp only [resolveShelfmark]
    rw [if_neg (show ¬(strL "Bodleian (Oxford)" = strL "Vaticana (BAV)") by decide),
      if_neg (show ¬(strL "Bodleian (Oxford)" = strL "Gallica (BnF)") by decide)]
    simp [hs]

/-- Witness for C7 at concrete inputs: an unknown library, a Gallica
input with no ARK, a Bodleian input that is not a UUID. -/
theorem resolveShelfmark_error_modes_witness :
    resolveShelfmark (strL "British Library") (strL "Add MS 12345") = (none, none) ∧
    resolveShelfmark (strL "Gallica (BnF)") (strL "btv1b84260335") =
      (none, some (strL "Gallica richiede un ID formato ARK (es. ark:/12148/...)")) ∧
    resolveShelfmark (strL "Bodleian (Oxford)") (strL "notauuid") =
      (none, some (strL "Bodleian richiede un UUID valido.")) :=
  ⟨resolveShelfmark_error_modes.1 _ _ (by decide) (by decide) (by decide),
    resolveShelfmark_error_modes.2.1 _ (by decide),
    resolveShelfmark_error_modes.2.2.1 _ (by decide)⟩

/-! # Lemmas about the Vault model and the worker trace -/

theorem createDownloadJob_lookup_isSome (db : VaultJobs) (j d l u : List Char) :
    ((createDownloadJob db j d l u).lookup j).isSome = true := by
  rw [createDownloadJob]
  cases h : db.lookup j with
  | some r => simp [h]
  | none => simp [h, List.lookup]

theorem hookWrites_snd (j : List Char) (cbs : List (Nat × Nat)) (last : Nat × Nat) :
    (hookWrites j last cbs).2 = (specChangedPairs last cbs).map
      (fun p => DbCall.update j p.1 p.2 (strL "running") none) := by
  induction cbs generalizing last with
  | nil => rfl
  | cons p rest ih =>
    obtain ⟨c, t⟩ := p
    by_cases h : (c, t) = last
    · have hcond : ¬(c ≠ last.1 ∨ t ≠ last.2) := by rw [← h]; simp
      rw [hookWrites, specChangedPairs, if_neg hcond, if_pos h]
      exact ih last
    · have hcond : c ≠ last.1 ∨ t ≠ last.2 := by
        by_contra hc
        push_neg at hc
        obtain ⟨last1, last2⟩ := last
        simp only at hc
        exact h (by rw [hc.1, hc.2])
      rw [hookWrites, specChangedPairs, if_pos hcond, if_neg h]
      simp only [List.map_cons]
      exact congrArg _ (ih (c, t))

theorem hookWrites_fst (j : List Char) (cbs : List (Nat × Nat)) (last : Nat × Nat) :
    (hookWrites j last cbs).1 = cbs.getLastD last := by
  induction cbs generalizing last with
  | nil => rfl
  | cons p rest ih =>
    obtain ⟨c, t⟩ := p
    rw [List.getLastD_cons]
    by_cases h : (c, t) = last
    · have hcond : ¬(c ≠ last.1 ∨ t ≠ last.2) := by rw [← h]; simp
      rw [hookWrites, if_neg hcond, ih last, h]
    · have hcond : c ≠ last.1 ∨ t ≠ last.2 := by
        by_contra hc
        push_neg at hc
        obtain ⟨last1, last2⟩ := last
        simp only at hc
        exact h (by rw [hc.1, hc.2])
      rw [hookWrites, if_pos hcond]
      exact ih (c, t)

theorem downloadTaskTrace_eq (beh : RunBehavior) (jobId docId library manifestUrl : List Char) :
    downloadTaskTrace beh jobId docId library manifestUrl =
      DbCall.create jobId docId library manifestUrl ::
        ((specChangedPairs (0, 0) beh.callbacks).map
            (fun p => DbCall.update jobId p.1 p.2 (strL "running") none) ++
          match beh.outcome with
          | .ok _ =>
            [DbCall.update jobId (beh.callbacks.getLastD (0, 0)).1
                (beh.callbacks.getLastD (0, 0)).2 (strL "completed") none,
             DbCall.upsertMs docId library beh.label beh.docDir]
          | .error m =>
            [DbCall.update jobId (beh.callbacks.getLastD (0, 0)).1
                (beh.callbacks.getLastD (0, 0)).2 (strL "error") (some m)]) := by
  rw [downloadTaskTrace]
  simp only [hookWrites_snd, hookWrites_fst]

theorem lookup_map_replace_ne (j otherId : List Char) (newrec : JobRecord)
    (db : VaultJobs) (h : otherId ≠ j) :
    ((db.map fun p => if p.1 = j then (p.1, newrec) else p).lookup otherId) =
      db.lookup otherId := by
  induction db with
  | nil => rfl
  | cons kv rest ih =>
    obtain ⟨k, v⟩ := kv
    rw [List.map_cons]
    by_cases hk : k = j
    · rw [show (if (k, v).1 = j then ((k, v).1, newrec) else (k, v)) = (k, newrec)
          by simp [hk]]
      have hb : (otherId == k) = false :=
        beq_eq_false_iff_ne.mpr (fun he => h (he.trans hk))
      rw [List.lookup_cons, List.lookup_cons, hb, ih]
    · rw [show (if (k, v).1 = j then ((k, v).1, newrec) else (k, v)) = (k, v)
          by simp [hk]]
      rw [List.lookup_cons, List.lookup_cons]
      cases hok : otherId == k
      · rw [ih]
      · rfl

theorem updateDownloadJob_lookup_ne (db : VaultJobs) (j otherId : List Char)
    (c t : Nat) (s : List Char) (e : Option (List Char)) (h : otherId ≠ j) :
    (updateDownloadJob db j c t s e).lookup otherId = db.lookup otherId := by
  rw [updateDownloadJob]
  cases hl : db.lookup j with
  | some rec => exact lookup_map_replace_ne j otherId _ db h
  | none =>
    have : (otherId == j) = false := beq_eq_false_iff_ne.mpr h
    simp [List.lookup, this]

theorem createDownloadJob_lookup_ne (db : VaultJobs) (j otherId d l u : List Char)
    (h : otherId ≠ j) :
    (createDownloadJob db j d l u).lookup otherId = db.lookup otherId := by
  rw [createDownloadJob]
  cases hl : db.lookup j with
  | some rec => simp
  | none =>
    have : (otherId == j) = false := beq_eq_false_iff_ne.mpr h
    simp [List.lookup, this]

theorem applyTrace_lookup_ne (calls : List DbCall) (db : VaultJobs)
    (jobId otherId : List Char) (h : otherId ≠ jobId)
    (hcalls : ∀ call ∈ calls, callJobTarget call = none ∨
      callJobTarget call = some jobId) :
    (applyTrace db calls).lookup otherId = db.lookup otherId := by
  induction calls generalizing db with
  | nil => rfl
  | cons call rest ih =>
    have hstep : (applyCall db call).lookup otherId = db.lookup otherId := by
      cases call with
      | create j d l u =>
        rcases hcalls _ (List.mem_cons_self _ _) with hc | hc
        · exact absurd hc (by simp [callJobTarget])
        · have : j = jobId := by simpa [callJobTarget] using hc
          subst this
          exact createDownloadJob_lookup_ne db j otherId d l u h
      | update j c t s e =>
        rcases hcalls _ (List.mem_cons_self _ _) with hc | hc
        · exact absurd hc (by simp [callJobTarget])
        · have : j = jobId := by simpa [callJobTarget] using hc
          subst this
          exact updateDownloadJob_lookup_ne db j otherId c t s e h
      | upsertMs a b c d => rfl
    rw [applyTrace, List.foldl_cons, ← applyTrace]
    rw [ih (applyCall db call) (fun c hc => hcalls c (List.mem_cons_of_mem _ hc)), hstep]

theorem downloadTaskTrace_targets (beh : RunBehavior)
    (jobId docId library manifestUrl : List Char) :
    ∀ call ∈ downloadTaskTrace beh jobId docId library manifestUrl,
      callJobTarget call = none ∨ callJobTarget call = some jobId := by
  intro call hc
  rw [downloadTaskTrace_eq] at hc
  rcases List.mem_cons.1 hc with rfl | hc
  · right; rfl
  rcases List.mem_append.1 hc with hc | hc
  · obtain ⟨p, _, rfl⟩ := List.mem_map.1 hc
    right; rfl
  · cases ho : beh.outcome with
    | ok u =>
      rw [ho] at hc
      simp only [List.mem_cons, List.not_mem_nil, or_false] at hc
      rcases hc with rfl | rfl
      · right; rfl
      · left; rfl
    | error m =>
      rw [ho] at hc
      simp only [List.mem_cons, List.not_mem_nil, or_false] at hc
      subst hc
      right; rfl

/-- C2: the job id is a deterministic pure function of
`(library, manifest_url)` — two submissions of the same pair (with any
`doc_id`s) produce the identical id, derived as
`{library}_{sha256(manifest_url)}`, and re-creating the job row under
that id is an insert-or-ignore no-op, so a re-submission addresses the
same job record rather than creating a new one. -/
theorem job_id_deterministic :
    (∀ manifestUrl docId1 docId2 library : List Char,
      startDownloaderThreadJobId manifestUrl docId1 library =
        startDownloaderThreadJobId manifestUrl docId2 library) ∧
    (∀ manifestUrl docId library : List Char,
      startDownloaderThreadJobId manifestUrl docId library =
        generateJobId (pyUnquote library) (pyUnquote manifestUrl)) ∧
    (∀ library manifestUrl : List Char,
      generateJobId library manifestUrl =
        library ++ '_' :: sha256hex (utf8Bytes manifestUrl)) ∧
    (∀ (db : VaultJobs) (jobId d1 l1 u1 d2 l2 u2 : List Char),
      createDownloadJob (createDownloadJob db jobId d1 l1 u1) jobId d2 l2 u2 =
        createDownloadJob db jobId d1 l1 u1) := by
  refine ⟨fun _ _ _ _ => rfl, fun _ _ _ => rfl, fun _ _ => rfl, ?_⟩
  intro db jobId d1 l1 u1 d2 l2 u2
  have h := createDownloadJob_lookup_isSome db jobId d1 l1 u1
  conv_lhs => rw [createDownloadJob]
  rw [if_pos h]

/-- C3: the worker's Vault trace is exactly: the job registration, then
one `running` progress write per callback whose `(current, total)` pair
differs from the last persisted pair (none when both are unchanged, per
the spec-side `specChangedPairs` policy), then — unconditionally — the
terminal write: `completed` (plus the manuscript upsert) on normal
return, `error` on an exception. -/
theorem progress_write_policy (beh : RunBehavior)
    (jobId docId library manifestUrl : List Char) :
    downloadTaskTrace beh jobId docId library manifestUrl =
      DbCall.create jobId docId library manifestUrl ::
        ((specChangedPairs (0, 0) beh.callbacks).map
            (fun p => DbCall.update jobId p.1 p.2 (strL "running") none) ++
          match beh.outcome with
          | .ok _ =>
            [DbCall.update jobId (beh.callbacks.getLastD (0, 0)).1
                (beh.callbacks.getLastD (0, 0)).2 (strL "completed") none,
             DbCall.upsertMs docId library beh.label beh.docDir]
          | .error m =>
            [DbCall.update jobId (beh.callbacks.getLastD (0, 0)).1
                (beh.callbacks.getLastD (0, 0)).2 (strL "error") (some m)]) :=
  downloadTaskTrace_eq beh jobId docId library manifestUrl

/-- C4: when the downloader run raises with message `m`, the worker
returns normally (the exception never propagates), its final Vault write
sets that job's status to `error` with the message recorded verbatim,
and the trace leaves every other job's row untouched. -/
theorem task_error_isolation (beh : RunBehavior)
    (jobId docId library manifestUrl m : List Char)
    (hout : beh.outcome = .error m) :
    downloadTaskRun beh jobId docId library manifestUrl =
      .ok (downloadTaskTrace beh jobId docId library manifestUrl) ∧
    (downloadTaskTrace beh jobId docId library manifestUrl).getLast? =
      some (DbCall.update jobId (beh.callbacks.getLastD (0, 0)).1
        (beh.callbacks.getLastD (0, 0)).2 (strL "error") (some m)) ∧
    (∀ (db : VaultJobs) (otherId : List Char), otherId ≠ jobId →
      (applyTrace db (downloadTaskTrace beh jobId docId library manifestUrl)).lookup
          otherId = db.lookup otherId) := by
  refine ⟨rfl, ?_, ?_⟩
  · rw [downloadTaskTrace_eq, hout]
    rw [show ∀ (a : DbCall) (l : List DbCall) (u : DbCall),
      a :: (l ++ [u]) = (a :: l) ++ [u] from fun a l u => rfl]
    exact List.getLast?_concat _
  · intro db otherId hne
    exact applyTrace_lookup_ne _ db jobId otherId hne
      (downloadTaskTrace_targets beh jobId docId library manifestUrl)

/-- Witness for C4 on a concrete failing run: the error write lands with
the verbatim message and another job's row is unaffected. -/
theorem task_error_isolation_witness :
    (RunBehavior.mk [(1, 2)] (.error (strL "boom")) [] []).outcome =
      .error (strL "boom") ∧
    (downloadTaskTrace ⟨[(1, 2)], .error (strL "boom"), [], []⟩
        (strL "j1") (strL "d") (strL "lib") (strL "u")).getLast? =
      some (DbCall.update (strL "j1") 1 2 (strL "error") (some (strL "boom"))) ∧
    (applyTrace [] (downloadTaskTrace ⟨[(1, 2)], .error (strL "boom"), [], []⟩
        (strL "j1") (strL "d") (strL "lib") (strL "u"))).lookup (strL "j2") = none :=
  ⟨rfl,
    (task_error_isolation ⟨[(1, 2)], .error (strL "boom"), [], []⟩
      (strL "j1") (strL "d") (strL "lib") (strL "u") (strL "boom") rfl).2.1,
    (task_error_isolation ⟨[(1, 2)], .error (strL "boom"), [], []⟩
      (strL "j1") (strL "d") (strL "lib") (strL "u") (strL "boom") rfl).2.2
      [] (strL "j2") (by decide)⟩

/-! # Lemmas for progress monotonicity (C1) -/

theorem specChangedPairs_of_strict (ps : List (ℕ × ℕ)) (last : ℕ × ℕ)
    (h : List.Chain' (fun p q : ℕ × ℕ => p.1 < q.1) (last :: ps)) :
    specChangedPairs last ps = ps := by
  induction ps generalizing last with
  | nil => rfl
  | cons p rest ih =>
    obtain ⟨h1, h2⟩ := List.chain'_cons.1 h
    rw [specChangedPairs, if_neg (fun he => by rw [he] at h1; omega), ih p h2]

theorem chain'_specRun (k total : ℕ) :
    List.Chain' (fun p q : ℕ × ℕ => p.1 < q.1) ((0, 0) :: specRunCallbacks k total) := by
  apply List.Pairwise.chain'
  rw [List.pairwise_cons]
  constructor
  · intro b hb
    rw [specRunCallbacks] at hb
    obtain ⟨i, _, rfl⟩ := List.mem_map.1 hb
    simp
  · rw [specRunCallbacks, List.pairwise_map]
    exact (List.pairwise_lt_range k).imp (fun h => Nat.succ_lt_succ h)

theorem specRun_getLastD (n total : ℕ) :
    (specRunCallbacks (n + 1) total).getLastD (0, 0) = (n + 1, total) := by
  rw [specRunCallbacks, List.range_succ, List.map_append]
  exact List.getLastD_concat _ _ _

theorem filterMap_some_eq_map (f : α → β) (l : List α) :
    l.filterMap (fun x => some (f x)) = l.map f := by
  induction l with
  | nil => rfl
  | cons a t ih => simp [List.filterMap_cons, ih]

theorem persistedCurrents_trace (beh : RunBehavior)
    (jobId docId library manifestUrl : List Char) :
    persistedCurrents (downloadTaskTrace beh jobId docId library manifestUrl) =
      (specChangedPairs (0, 0) beh.callbacks).map (fun p => p.1) ++
        [(beh.callbacks.getLastD (0, 0)).1] := by
  rw [downloadTaskTrace_eq]
  cases ho : beh.outcome <;>
    simp [persistedCurrents, List.filterMap_append, List.filterMap_map,
      Function.comp_def, filterMap_some_eq_map]

theorem lookup_map_replace_self (j : List Char) (newrec : JobRecord)
    (db : VaultJobs) (v : JobRecord) (h : db.lookup j = some v) :
    ((db.map fun p => if p.1 = j then (p.1, newrec) else p).lookup j) =
      some newrec := by
  induction db with
  | nil => simp at h
  | cons kv rest ih =>
    obtain ⟨k, v0⟩ := kv
    rw [List.map_cons]
    rw [List.lookup_cons] at h
    cases hok : j == k
    · rw [hok] at h
      have hkne : ¬((k, v0).1 = j) := by
        intro he
        rw [show k = j from he] at hok
        simp at hok
      rw [if_neg hkne, List.lookup_cons, hok]
      exact ih h
    · have hkj : k = j := (eq_of_beq hok).symm
      rw [if_pos (show (k, v0).1 = j from hkj), List.lookup_cons, hok]

theorem updateDownloadJob_lookup_self (db : VaultJobs) (j : List Char)
    (c t : Nat) (s : List Char) (e : Option (List Char)) :
    ∃ rec : JobRecord, (updateDownloadJob db j c t s e).lookup j = some rec ∧
      rec.current = c ∧ rec.total = t ∧ rec.status = s ∧ rec.error = e := by
  rw [updateDownloadJob]
  cases hl : db.lookup j with
  | some rec0 =>
    exact ⟨⟨rec0.docId, rec0.library, rec0.manifestUrl, c, t, s, e⟩,
      lookup_map_replace_self j _ db rec0 hl, rfl, rfl, rfl, rfl⟩
  | none =>
    refine ⟨⟨[], [], [], c, t, s, e⟩, ?_, rfl, rfl, rfl, rfl⟩
    rw [List.lookup_cons, beq_self_eq_true]

/-- C1: for a download job driven by the engine's ordered per-page
callbacks, the sequence of `current` values persisted to the Vault is
non-decreasing over the run (whatever the outcome), and a run that
completes all pages leaves the job's row with status `completed` and
`current = total`. -/
theorem progress_monotone_completed (k total : ℕ) (outcome : Except (List Char) Unit)
    (label docDir jobId docId library manifestUrl : List Char) (db : VaultJobs)
    (hk : k ≤ total) :
    List.Chain' (· ≤ ·) (persistedCurrents (downloadTaskTrace
      ⟨specRunCallbacks k total, outcome, label, docDir⟩
      jobId docId library manifestUrl)) ∧
    (outcome = .ok () → k = total →
      ∃ rec : JobRecord,
        (applyTrace db (downloadTaskTrace
            ⟨specRunCallbacks k total, outcome, label, docDir⟩
            jobId docId library manifestUrl)).lookup jobId = some rec ∧
          rec.status = strL "completed" ∧ rec.current = total ∧
          rec.total = total) := by
  have hspec : specChangedPairs (0, 0) (specRunCallbacks k total) =
      specRunCallbacks k total :=
    specChangedPairs_of_strict _ _ (chain'_specRun k total)
  constructor
  · rw [persistedCurrents_trace]
    simp only [hspec]
    apply List.Pairwise.chain'
    rw [List.pairwise_append]
    refine ⟨?_, List.pairwise_singleton _ _, ?_⟩
    · rw [specRunCallbacks, List.map_map, List.pairwise_map]
      exact (List.pairwise_lt_range k).imp
        (fun h => Nat.succ_le_succ (Nat.le_of_lt h))
    · intro a ha b hb
      rw [List.mem_singleton] at hb
      subst hb
      rw [specRunCallbacks, List.map_map] at ha
      obtain ⟨i, hi, rfl⟩ := List.mem_map.1 ha
      rw [List.mem_range] at hi
      cases k with
      | zero => exact absurd hi (by omega)
      | succ n =>
        rw [specRun_getLastD]
        exact Nat.succ_le_succ (by omega)
  · intro ho hkt
    subst hkt
    rw [downloadTaskTrace_eq]
    simp only [ho]
    rw [applyTrace, List.foldl_cons, List.foldl_append]
    simp only [List.foldl_cons, List.foldl_nil]
    obtain ⟨rec, hrec, hc, ht, hs, he⟩ := updateDownloadJob_lookup_self
      (List.foldl applyCall (applyCall db
        (DbCall.create jobId docId library manifestUrl))
        ((specChangedPairs (0, 0) (specRunCallbacks k k)).map
          (fun p => DbCall.update jobId p.1 p.2 (strL "running") none)))
      jobId ((specRunCallbacks k k).getLastD (0, 0)).1
      ((specRunCallbacks k k).getLastD (0, 0)).2 (strL "completed") none
    refine ⟨rec, ?_, hs, ?_, ?_⟩
    · exact hrec
    · rw [hc]
      cases k with
      | zero => rfl
      | succ n => rw [specRun_getLastD]
    · rw [ht]
      cases k with
      | zero => rfl
      | succ n => rw [specRun_getLastD]

/-- Witness for C1 on a concrete completed two-page run. -/
theorem progress_monotone_completed_witness :
    (2 : ℕ) ≤ 2 ∧
    List.Chain' (· ≤ ·) (persistedCurrents (downloadTaskTrace
      ⟨specRunCallbacks 2 2, .ok (), strL "T", strL "D"⟩
      (strL "j1") (strL "d") (strL "lib") (strL "u"))) ∧
    (∃ rec : JobRecord,
      (applyTrace [] (downloadTaskTrace
          ⟨specRunCallbacks 2 2, .ok (), strL "T", strL "D"⟩
          (strL "j1") (strL "d") (strL "lib") (strL "u"))).lookup (strL "j1") =
        some rec ∧
        rec.status = strL "completed" ∧ rec.current = 2 ∧ rec.total = 2) :=
  ⟨le_refl 2,
    (progress_monotone_completed 2 2 (.ok ()) (strL "T") (strL "D")
      (strL "j1") (strL "d") (strL "lib") (strL "u") [] (le_refl 2)).1,
    (progress_monotone_completed 2 2 (.ok ()) (strL "T") (strL "D")
      (strL "j1") (strL "d") (strL "lib") (strL "u") [] (le_refl 2)).2 rfl rfl⟩

/-! # Lemmas for the Vatican shelfmark normalization (C5) -/

theorem pyReplaceFuel_space (n : Nat) : ∀ l : List Char, l.length ≤ n →
    pyReplaceFuel [' '] [] n l = delSpaces l := by
  induction n with
  | zero =>
    intro l hl
    rw [List.length_eq_zero.1 (Nat.le_zero.1 hl)]
    rfl
  | succ m ih =>
    intro l hl
    cases l with
    | nil => rfl
    | cons c cs =>
      have hcs : cs.length ≤ m := by
        simp only [List.length_cons] at hl
        omega
      by_cases hc : c = ' '
      · subst hc
        rw [pyReplaceFuel,
          if_pos (show (List.take ([' '] : List Char).length (' ' :: cs) ==
            ([' '] : List Char)) = true from rfl)]
        show [] ++ pyReplaceFuel [' '] [] m cs = delSpaces (' ' :: cs)
        rw [List.nil_append, ih cs hcs,
          show delSpaces (' ' :: cs) = delSpaces cs from
            List.filter_cons_of_neg (by simp)]
      · rw [pyReplaceFuel,
          if_neg (fun h => hc (by simpa using (h : ([c] == [' ']) = true)))]
        show c :: pyReplaceFuel [' '] [] m cs = delSpaces (c :: cs)
        rw [ih cs hcs,
          show delSpaces (c :: cs) = c :: delSpaces cs from
            List.filter_cons_of_pos (by simpa using hc)]

theorem pyReplace_space (l : List Char) :
    pyReplace (strL " ") [] l = delSpaces l :=
  pyReplaceFuel_space l.length l (le_refl _)

theorem delSpaces_dropWhile (l : List Char)
    (h : ∀ c ∈ l, isPyWs c = true → c = ' ') :
    delSpaces (l.dropWhile isPyWs) = delSpaces l := by
  induction l with
  | nil => rfl
  | cons c cs ih =>
    cases hw : isPyWs c
    · rw [List.dropWhile_cons_of_neg (by simp [hw])]
    · rw [List.dropWhile_cons_of_pos (by simp [hw])]
      have hcsp : c = ' ' := h c (List.mem_cons_self _ _) hw
      subst hcsp
      rw [ih (fun x hx hwx => h x (List.mem_cons_of_mem _ hx) hwx),
        show delSpaces (' ' :: cs) = delSpaces cs from
          List.filter_cons_of_neg (by simp)]

theorem delSpaces_reverse (l : List Char) :
    delSpaces l.reverse = (delSpaces l).reverse :=
  List.filter_reverse _ l

theorem delSpaces_pyStrip (l : List Char)
    (h : ∀ c ∈ l, isPyWs c = true → c = ' ') :
    delSpaces (pyStrip l) = delSpaces l := by
  rw [pyStrip, delSpaces_reverse,
    delSpaces_dropWhile _ (fun c hc hw =>
      h c ((List.dropWhile_sublist isPyWs).subset (List.mem_reverse.1 hc)) hw),
    delSpaces_reverse, List.reverse_reverse, delSpaces_dropWhile _ h]

/-- C5 counterexample: the spec's own example input `"urb lat 123"` does
*not* resolve to `MSS_Urb.lat.123` — the code only strips spaces and
re-cases the dotted prefixes, so it yields `MSS_urblat123`. -/
theorem vatican_casing_counterexample :
    resolveShelfmark (strL "Vaticana (BAV)") (strL "urb lat 123") =
      (some (strL "https://digi.vatlib.it/iiif/MSS_urblat123/manifest.json"),
        some (strL "urblat123")) ∧
    (resolveShelfmark (strL "Vaticana (BAV)") (strL "urb lat 123")).1 ≠
      some (strL "https://digi.vatlib.it/iiif/MSS_Urb.lat.123/manifest.json") := by
  constructor
  · decide
  · decide

/-- C5 amended: Vatican resolution is invariant under *spacing* changes
(inputs whose space-deleted forms agree resolve identically), and the
casing normalization covers exactly the dotted prefixes
(`Lat.→lat.`, `Gr.→gr.`, `Vat.→vatic.`, `Pal.→pal.`): `"Urb. lat. 123"`
and `"Urb. Lat. 123"` both yield `MSS_Urb.lat.123`, while general
casing (e.g. a lower-case first letter) is preserved, not normalized. -/
theorem vatican_spacing_invariance :
    (∀ s t : List Char,
      (∀ c ∈ s, isPyWs c = true → c = ' ') →
      (∀ c ∈ t, isPyWs c = true → c = ' ') →
      isSubstr (strL "digi.vatlib.it") (pyStrip s) = false →
      isSubstr (strL "digi.vatlib.it") (pyStrip t) = false →
      delSpaces s = delSpaces t →
      resolveShelfmark (strL "Vaticana (BAV)") s =
        resolveShelfmark (strL "Vaticana (BAV)") t) ∧
    resolveShelfmark (strL "Vaticana (BAV)") (strL "Urb. lat. 123") =
      (some (strL "https://digi.vatlib.it/iiif/MSS_Urb.lat.123/manifest.json"),
        some (strL "Urb.lat.123")) ∧
    resolveShelfmark (strL "Vaticana (BAV)") (strL "Urb. Lat. 123") =
      (some (strL "https://digi.vatlib.it/iiif/MSS_Urb.lat.123/manifest.json"),
        some (strL "Urb.lat.123")) := by
  refine ⟨?_, by decide, by decide⟩
  intro s t hs ht hvs hvt heq
  have hclean : pyReplace (strL " ") [] (pyStrip s) =
      pyReplace (strL " ") [] (pyStrip t) := by
    rw [pyReplace_space, pyReplace_space, delSpaces_pyStrip _ hs,
      delSpaces_pyStrip _ ht, heq]
  simp only [resolveShelfmark, hvs, hvt]
  rw [hclean]
  simp

/-- Witness for the amended C5: two concrete spacing variants of the
same shelfmark resolve identically. -/
theorem vatican_spacing_invariance_witness :
    resolveShelfmark (strL "Vaticana (BAV)") (strL "Urb. lat. 123") =
      resolveShelfmark (strL "Vaticana (BAV)") (strL "Urb.lat.123") :=
  vatican_spacing_invariance.1 (strL "Urb. lat. 123") (strL "Urb.lat.123")
    (by decide) (by decide) (by decide) (by decide) (by decide)

/-! # Lemmas for the Gallica resolver (C6) -/

theorem asciiLower_of_lowerAlnum (c : Char) (h : isLowerAlnum c = true) :
    asciiLower c = c := by
  rw [isLowerAlnum] at h
  simp only [Bool.or_eq_true, decide_eq_true_eq] at h
  rw [asciiLower, if_neg (by omega)]

theorem isAsciiAlnum_of_lowerAlnum (c : Char) (h : isLowerAlnum c = true) :
    isAsciiAlnum c = true := by
  rw [isLowerAlnum] at h
  simp only [Bool.or_eq_true, decide_eq_true_eq] at h
  rw [isAsciiAlnum]
  simp only [Bool.or_eq_true, decide_eq_true_eq]
  omega

theorem isPyWs_eq_false_of_lowerAlnum (c : Char) (h : isLowerAlnum c = true) :
    isPyWs c = false := by
  have hne : ∀ x : Char, isLowerAlnum x = false → (c == x) = false := by
    intro x hx
    refine beq_eq_false_iff_ne.mpr (fun he => ?_)
    rw [he, hx] at h
    simp at h
  rw [isPyWs, hne ' ' (by decide), hne '\t' (by decide), hne '\n' (by decide),
    hne '\x0d' (by decide), hne '\x0b' (by decide), hne '\x0c' (by decide)]
  rfl

theorem dropWhile_eq_self_of (p : Char → Bool) (l : List Char)
    (h : ∀ c ∈ l, p c = false) : l.dropWhile p = l := by
  cases l with
  | nil => rfl
  | cons c cs =>
    rw [List.dropWhile_cons_of_neg (by simp [h c (List.mem_cons_self _ _)])]

theorem pyStrip_eq_self (l : List Char) (h : ∀ c ∈ l, isPyWs c = false) :
    pyStrip l = l := by
  rw [pyStrip, dropWhile_eq_self_of _ _ h,
    dropWhile_eq_self_of _ _ (fun c hc => h c (List.mem_reverse.1 hc)),
    List.reverse_reverse]

theorem takeAlnumRun_eq_self (l : List Char)
    (h : ∀ c ∈ l, isAsciiAlnum c = true) : takeAlnumRun l = l := by
  induction l with
  | nil => rfl
  | cons c cs ih =>
    rw [takeAlnumRun, if_pos (h c (List.mem_cons_self _ _)),
      ih (fun x hx => h x (List.mem_cons_of_mem _ hx))]

theorem takeAlnumRun_append_slash (l s : List Char)
    (h : ∀ c ∈ l, isAsciiAlnum c = true) :
    takeAlnumRun (l ++ '/' :: s) = l := by
  induction l with
  | nil =>
    rw [List.nil_append, takeAlnumRun, if_neg (by decide)]
  | cons c cs ih =>
    rw [List.cons_append, takeAlnumRun, if_pos (h c (List.mem_cons_self _ _)),
      ih (fun x hx => h x (List.mem_cons_of_mem _ hx))]

theorem takeWhile_ne_dot (l : List Char)
    (h : ∀ c ∈ l, isAsciiAlnum c = true) :
    l.takeWhile (· ≠ '.') = l := by
  induction l with
  | nil => rfl
  | cons c cs ih =>
    have hc := h c (List.mem_cons_self _ _)
    have hne : decide (c ≠ '.') = true :=
      decide_eq_true (fun he => by rw [he] at hc; exact absurd hc (by decide))
    rw [@List.takeWhile_cons_of_pos _ (fun x => decide (x ≠ '.')) c cs hne,
      ih (fun x hx => h x (List.mem_cons_of_mem _ hx))]

theorem arkFind_none_of_alnum (l : List Char)
    (h : ∀ c ∈ l, isLowerAlnum c = true) : arkFind l = none := by
  induction l with
  | nil => rfl
  | cons c cs ih =>
    rw [arkFind, if_neg ?cond]
    · exact ih (fun x hx => h x (List.mem_cons_of_mem _ hx))
    case cond =>
      intro hcond
      rw [Bool.and_eq_true] at hcond
      have h1 : ((List.take 11 (c :: cs)).map asciiLower == arkPat) = true :=
        hcond.1
      have heq : (List.take 11 (c :: cs)).map asciiLower = arkPat := eq_of_beq h1
      have hmem : (':' : Char) ∈ (List.take 11 (c :: cs)).map asciiLower := by
        rw [heq]; decide
      obtain ⟨x, hx, hax⟩ := List.mem_map.1 hmem
      have hlx := h x (List.take_subset _ _ hx)
      rw [asciiLower_of_lowerAlnum x hlx] at hax
      rw [hax] at hlx
      exact absurd hlx (by decide)

theorem arkFind_view (d : Char) (rest : List Char) (hd : isAsciiAlnum d = true) :
    arkFind (strL "https://gallica.bnf.fr/ark:/12148/" ++ d :: rest) =
      some (takeAlnumRun (d :: rest)) := by
  rw [show arkFind (strL "https://gallica.bnf.fr/ark:/12148/" ++ d :: rest) =
      if isAsciiAlnum d = true then some (takeAlnumRun (d :: rest))
      else arkFind (strL "rk:/12148/" ++ d :: rest) from rfl,
    if_pos hd]

theorem arkFind_manifest (d : Char) (rest : List Char) (hd : isAsciiAlnum d = true) :
    arkFind (strL "https://gallica.bnf.fr/iiif/ark:/12148/" ++ d :: rest) =
      some (takeAlnumRun (d :: rest)) := by
  rw [show arkFind (strL "https://gallica.bnf.fr/iiif/ark:/12148/" ++ d :: rest) =
      if isAsciiAlnum d = true then some (takeAlnumRun (d :: rest))
      else arkFind (strL "rk:/12148/" ++ d :: rest) from rfl,
    if_pos hd]

/-- C6: for every Gallica document id matching `^[a-z0-9]{6,}$`, the
full view URL, the canonical manifest URL and the bare short id all
resolve to the same `(manifest_url, doc_id)` pair. -/
theorem gallica_roundtrip (id : List Char)
    (h : ∀ c ∈ id, isLowerAlnum c = true) (hlen : 6 ≤ id.length) :
    gallicaManifestUrl (strL "https://gallica.bnf.fr/ark:/12148/" ++ id) =
      (some (strL "https://gallica.bnf.fr/iiif/ark:/12148/" ++ id ++
        strL "/manifest.json"), some id) ∧
    gallicaManifestUrl (strL "https://gallica.bnf.fr/iiif/ark:/12148/" ++ id ++
        strL "/manifest.json") =
      (some (strL "https://gallica.bnf.fr/iiif/ark:/12148/" ++ id ++
        strL "/manifest.json"), some id) ∧
    gallicaManifestUrl id =
      (some (strL "https://gallica.bnf.fr/iiif/ark:/12148/" ++ id ++
        strL "/manifest.json"), some id) := by
  obtain ⟨d, rest, rfl⟩ : ∃ d rest, id = d :: rest := by
    cases id with
    | nil => simp at hlen
    | cons a l => exact ⟨a, l, rfl⟩
  have hall : ∀ c ∈ d :: rest, isAsciiAlnum c = true :=
    fun c hc => isAsciiAlnum_of_lowerAlnum c (h c hc)
  have hd : isAsciiAlnum d = true := hall d (List.mem_cons_self _ _)
  have hidws : ∀ c ∈ d :: rest, isPyWs c = false :=
    fun c hc => isPyWs_eq_false_of_lowerAlnum c (h c hc)
  refine ⟨?_, ?_, ?_⟩
  · have hstrip : pyStrip (strL "https://gallica.bnf.fr/ark:/12148/" ++ d :: rest) =
        strL "https://gallica.bnf.fr/ark:/12148/" ++ d :: rest :=
      pyStrip_eq_self _ (fun c hc => by
        rcases List.mem_append.1 hc with h1 | h1
        · exact (by decide : ∀ x ∈ strL "https://gallica.bnf.fr/ark:/12148/",
            isPyWs x = false) c h1
        · exact hidws c h1)
    simp only [gallicaManifestUrl]
    rw [hstrip, if_neg (by simp), arkFind_view d rest hd,
      takeAlnumRun_eq_self _ hall]
    show (some (strL "https://gallica.bnf.fr/iiif/ark:/12148/" ++
        List.takeWhile (· ≠ '.') (d :: rest) ++ strL "/manifest.json"),
      some (List.takeWhile (· ≠ '.') (d :: rest))) = _
    rw [takeWhile_ne_dot _ hall]
  · have hassoc : (strL "https://gallica.bnf.fr/iiif/ark:/12148/" ++ d :: rest) ++
        strL "/manifest.json" =
        strL "https://gallica.bnf.fr/iiif/ark:/12148/" ++
          (d :: (rest ++ strL "/manifest.json")) := by
      rw [List.append_assoc, List.cons_append]
    have hws2 : ∀ c ∈ strL "https://gallica.bnf.fr/iiif/ark:/12148/" ++
        (d :: (rest ++ strL "/manifest.json")), isPyWs c = false := by
      intro c hc
      rcases List.mem_append.1 hc with h1 | h1
      · exact (by decide : ∀ x ∈ strL "https://gallica.bnf.fr/iiif/ark:/12148/",
          isPyWs x = false) c h1
      · rcases List.mem_cons.1 h1 with rfl | h2
        · exact hidws c (List.mem_cons_self _ _)
        · rcases List.mem_append.1 h2 with h3 | h3
          · exact hidws c (List.mem_cons_of_mem _ h3)
          · exact (by decide : ∀ x ∈ strL "/manifest.json",
              isPyWs x = false) c h3
    have hrun : takeAlnumRun (d :: (rest ++ strL "/manifest.json")) = d :: rest := by
      rw [show d :: (rest ++ strL "/manifest.json") =
          (d :: rest) ++ '/' :: strL "manifest.json" from by
        rw [List.cons_append,
          show strL "/manifest.json" = '/' :: strL "manifest.json" from rfl]]
      exact takeAlnumRun_append_slash _ _ hall
    conv_lhs => rw [hassoc]
    simp only [gallicaManifestUrl]
    rw [pyStrip_eq_self _ hws2, if_neg (by simp),
      arkFind_manifest d (rest ++ strL "/manifest.json") hd, hrun]
    show (some (strL "https://gallica.bnf.fr/iiif/ark:/12148/" ++
        List.takeWhile (· ≠ '.') (d :: rest) ++ strL "/manifest.json"),
      some (List.takeWhile (· ≠ '.') (d :: rest))) = _
    rw [takeWhile_ne_dot _ hall]
  · have hshort : shortIdOk (d :: rest) = true := by
      rw [shortIdOk, Bool.and_eq_true]
      exact ⟨decide_eq_true hlen, List.all_eq_true.mpr hall⟩
    have hcont : ((d :: rest).contains '/') = false := by
      rw [show ((d :: rest).contains '/') = List.elem '/' (d :: rest) from rfl,
        List.elem_eq_mem]
      exact decide_eq_false (fun hm => absurd (h '/' hm) (by decide))
    simp only [gallicaManifestUrl]
    rw [pyStrip_eq_self _ hidws, if_neg (List.cons_ne_nil d rest),
      arkFind_none_of_alnum _ h]
    show (if (shortIdOk (d :: rest) && !((d :: rest).contains '/')) = true
        then (some (strL "https://gallica.bnf.fr/iiif/ark:/12148/" ++ (d :: rest) ++
          strL "/manifest.json"), some (d :: rest))
        else (none, none)) = _
    rw [hshort, hcont]
    rfl

/-- Witness for C6 at the spec's own example id. -/
theorem gallica_roundtrip_witness :
    gallicaManifestUrl (strL "https://gallica.bnf.fr/ark:/12148/btv1b84260335") =
      (some (strL "https://gallica.bnf.fr/iiif/ark:/12148/btv1b84260335/manifest.json"),
        some (strL "btv1b84260335")) ∧
    gallicaManifestUrl (strL "btv1b84260335") =
      (some (strL "https://gallica.bnf.fr/iiif/ark:/12148/btv1b84260335/manifest.json"),
        some (strL "btv1b84260335")) := by
  have h := gallica_roundtrip (strL "btv1b84260335") (by decide) (by decide)
  exact ⟨h.1, h.2.2⟩

end IIIF
